import Mathlib

/-!
Verification of the request-building and response-validation pipeline of the
firebase database client (src/database.go, package firebase).

The Go source is shallowly embedded: each method of dbClient becomes a pure
Lean function. Go byte slices are embedded as String (the UTF-8 bytes), the
pluggable transport (IRequestClient.Do) becomes a function argument
do_ : Request → Except GoError Response, and json.Marshal / json.Unmarshal
become oracle arguments (an Except value, resp. a function on the payload),
since JSON coding of arbitrary Go values is an external capability.
Go dynamic error types are embedded as the inductive GoError: errors.New
produces a distinct dynamic type from a transport error or a json error,
which the constructors mirror. To state call-count properties, every
operation also returns the trace of requests it handed to the transport.
log.Printf of the debug header is a pure no-op side channel and is dropped.
http.NewRequest and reading an in-memory response body are total here: the
URL is built by string concatenation and the response payload is a value,
not a stream.
-/

namespace Firebase

/-- Embedding of the Go type Method (type Method string). -/
abbrev Method := String

/-- Embedding of the POST constant of src/database.go. -/
def POST : Method := "POST"

/-- Embedding of the GET constant of src/database.go. -/
def GET : Method := "GET"

/-- Embedding of the PATCH constant of src/database.go. -/
def PATCH : Method := "PATCH"

/-- Embedding of the DELETE constant of src/database.go: the source spells
the string value DELETET (line 20). -/
def DELETE : Method := "DELETET"

/-- Embedding of the PUT constant of src/database.go. -/
def PUT : Method := "PUT"

/-- Embedding of the debugHeader constant. -/
def debugHeader : String := "X-Firebase-Auth-Debug"

/-- Embedding of ParamAccessToken = "auth". -/
def ParamAccessToken : String := "auth"

/-- Embedding of ParamFormat = "format". -/
def ParamFormat : String := "format"

/-- Embedding of ParamShallow = "shallow". -/
def ParamShallow : String := "shallow"

/-- Embedding of ParamPrint = "print". -/
def ParamPrint : String := "print"

/-- Embedding of the availableParams map of src/database.go (lines 44-50).
Note that buildRequest never consults this map; it is dead data in the
source, embedded here verbatim for reference. -/
def availableParams : List (Method × List String) :=
  [ (POST,   [ParamAccessToken, ParamPrint])
  , (GET,    [ParamAccessToken, ParamShallow, ParamPrint])
  , (PATCH,  [ParamAccessToken, ParamPrint])
  , (DELETE, [ParamAccessToken, ParamPrint])
  , (PUT,    [ParamAccessToken, ParamPrint]) ]

/-- Embedding of the dbClient struct (src/database.go lines 57-63). The
client field (the transport) is not stored: it is passed as the do_
argument of each operation, which is equivalent for a client whose
transport is fixed at construction. -/
structure DBClient where
  baseUrl : String
  accessToken : String
  exportFlag : Bool
  shallow : Bool
  deriving DecidableEq, Repr

/-- Embedding of NewDBClient (src/database.go lines 67-77): the composite
literal omits the shallow field, so Go zero-initialises it to false. The
transport defaulting (nil becomes http.Client) concerns only which do_ is
used later. -/
def NewDBClient (baseUrl accessToken : String) (exportFlag : Bool) : DBClient :=
  { baseUrl := baseUrl
  , accessToken := accessToken
  , exportFlag := exportFlag
  , shallow := false }

/-- Embedding of a built http.Request: the method string, the full URL
string handed to http.NewRequest, the query parameters it carries (the
pairs added to url.Values, a projection of the URL), and the body bytes
(nil and empty byte slices both read as the empty body). -/
structure Request where
  method : String
  url : String
  query : List (String × String)
  body : String
  deriving DecidableEq, Repr

/-- Embedding of an http.Response as the client observes it: the status
line string, the value of the debug header (empty when absent), and the
body payload. -/
structure Response where
  status : String
  debug : String
  body : String
  deriving DecidableEq, Repr

/-- Embedding of Go dynamic error values. errors.New yields an errorString;
the transport, json.Marshal and json.Unmarshal each yield their own error
types, kept distinct by construction here as in Go. -/
inductive GoError where
  | errorNew (msg : String)
  | transportErr (msg : String)
  | jsonMarshalErr (msg : String)
  | jsonUnmarshalErr (msg : String)
  deriving DecidableEq, Repr

/-- UTF-8 encoding of one character, as Go produces with a byte-slice
conversion of a string. -/
def utf8Bytes (c : Char) : List UInt8 :=
  let n := c.toNat
  if n < 0x80 then
    [UInt8.ofNat n]
  else if n < 0x800 then
    [UInt8.ofNat (0xC0 ||| (n >>> 6)), UInt8.ofNat (0x80 ||| (n &&& 0x3F))]
  else if n < 0x10000 then
    [UInt8.ofNat (0xE0 ||| (n >>> 12)), UInt8.ofNat (0x80 ||| ((n >>> 6) &&& 0x3F)),
     UInt8.ofNat (0x80 ||| (n &&& 0x3F))]
  else
    [UInt8.ofNat (0xF0 ||| (n >>> 18)), UInt8.ofNat (0x80 ||| ((n >>> 12) &&& 0x3F)),
     UInt8.ofNat (0x80 ||| ((n >>> 6) &&& 0x3F)), UInt8.ofNat (0x80 ||| (n &&& 0x3F))]

/-- The UTF-8 bytes of a string, Go []byte(s). -/
def strBytes (s : String) : List UInt8 :=
  s.data.flatMap utf8Bytes

/-- Embedding of strings.HasPrefix on the byte level. -/
def bytesHasPre : List UInt8 → List UInt8 → Bool
  | _, [] => true
  | [], _ :: _ => false
  | b :: bs, p :: ps => p == b && bytesHasPre bs ps

/-- strings.HasPrefix(s, p): does s start with the bytes of p. -/
def hasPre (s p : String) : Bool :=
  bytesHasPre (strBytes s) (strBytes p)

/-- Byte-wise string comparison, as Go sort.Strings orders keys. -/
def bytesLt : List UInt8 → List UInt8 → Bool
  | [], [] => false
  | [], _ :: _ => true
  | _ :: _, [] => false
  | a :: as, b :: bs => if a < b then true else if b < a then false else bytesLt as bs

/-- Go string less-than on the byte level. -/
def strLt (a b : String) : Bool :=
  bytesLt (strBytes a) (strBytes b)

/-- Is a byte left unescaped by Go url.QueryEscape: ASCII letters, digits,
and the marks minus, underscore, dot, tilde. -/
def queryUnreserved (b : UInt8) : Bool :=
  (0x41 ≤ b && b ≤ 0x5A) || (0x61 ≤ b && b ≤ 0x7A) || (0x30 ≤ b && b ≤ 0x39) ||
  b == 0x2D || b == 0x5F || b == 0x2E || b == 0x7E

/-- Upper-case hexadecimal digit, as Go url escaping emits. -/
def hexDigit (n : Nat) : Char :=
  (["0", "1", "2", "3", "4", "5", "6", "7", "8", "9", "A", "B", "C", "D", "E", "F"].getD n "0").get 0

/-- Escape one byte as Go url.QueryEscape does: unreserved bytes pass,
space becomes plus, everything else percent-encodes. -/
def escapeByte (b : UInt8) : List Char :=
  if queryUnreserved b then [Char.ofNat b.toNat]
  else if b == 0x20 then ['+']
  else ['%', hexDigit (b.toNat / 16), hexDigit (b.toNat % 16)]

/-- Embedding of url.QueryEscape. -/
def queryEscape (s : String) : String :=
  ⟨(strBytes s).flatMap escapeByte⟩

/-- Insert a key-value pair into a key-sorted list, byte-wise order as Go
sort.Strings produces on the key set of url.Values. -/
def insertByKey (p : String × String) : List (String × String) → List (String × String)
  | [] => [p]
  | q :: qs => if strLt q.1 p.1 then q :: insertByKey p qs else p :: q :: qs

/-- Sort key-value pairs by key, matching the sorted-key iteration of
url.Values.Encode (keys here are unique, so stability is immaterial). -/
def sortByKey : List (String × String) → List (String × String)
  | [] => []
  | p :: ps => insertByKey p (sortByKey ps)

/-- Embedding of url.Values.Encode: keys in sorted order, each pair emitted
as escaped key, equals sign, escaped value, joined by ampersands. -/
def encodeValues (ps : List (String × String)) : String :=
  String.intercalate "&"
    ((sortByKey ps).map (fun p => queryEscape p.1 ++ "=" ++ queryEscape p.2))

/-- The url.Values assembled by buildRequest (src/database.go lines
113-123): auth when the access token is non-empty, format=export when the
export flag is set, shallow=true when the shallow flag is set. The three
Add calls never share a key, so the Values map is this list. -/
def buildQuery (c : DBClient) : List (String × String) :=
  (if c.accessToken ≠ "" then [(ParamAccessToken, c.accessToken)] else []) ++
  (if c.exportFlag then [(ParamFormat, "export")] else []) ++
  (if c.shallow then [(ParamShallow, "true")] else [])

/-- Embedding of buildRequest (src/database.go lines 112-128): the URL is
baseUrl ++ path ++ ".json" ++ "?" ++ q.Encode(), and the request carries
the method and body through to http.NewRequest. -/
def buildRequest (c : DBClient) (path : String) (method : Method) (body : String) : Request :=
  let q := buildQuery c
  { method := method
  , url := c.baseUrl ++ path ++ ".json" ++ "?" ++ encodeValues q
  , query := q
  , body := body }

/-- Embedding of executeRequest (src/database.go lines 80-110): build the
request, hand it to the transport exactly once, propagate a transport
error unchanged, fail with errors.New(status) when the status string does
not start with the byte "2", otherwise return the body. The second
component is the trace of requests handed to the transport. -/
def executeRequest (c : DBClient) (do_ : Request → Except GoError Response)
    (method : Method) (path : String) (body : String) :
    Except GoError String × List Request :=
  let req := buildRequest c path method body
  match do_ req with
  | .error e => (.error e, [req])
  | .ok res =>
    if hasPre res.status "2" = false then
      (.error (.errorNew res.status), [req])
    else
      (.ok res.body, [req])

/-- Embedding of Get (src/database.go lines 134-143): GET, then
json.Unmarshal the payload into the target; the unmarshal oracle stands
for json.Unmarshal at the target value. -/
def Get (c : DBClient) (do_ : Request → Except GoError Response)
    (unmarshal : String → Except String Unit) (path : String) :
    Except GoError Unit × List Request :=
  match executeRequest c do_ GET path "" with
  | (.error e, t) => (.error e, t)
  | (.ok resp, t) =>
    match unmarshal resp with
    | .error e => (.error (.jsonUnmarshalErr e), t)
    | .ok _ => (.ok (), t)

/-- Embedding of Write (src/database.go lines 147-158): json.Marshal first
(the marshal oracle is its outcome at the value), a failure returns at
once, otherwise PUT the serialized data. -/
def Write (c : DBClient) (do_ : Request → Except GoError Response)
    (path : String) (marshal : Except String String) :
    Except GoError Unit × List Request :=
  match marshal with
  | .error e => (.error (.jsonMarshalErr e), [])
  | .ok jsonData =>
    match executeRequest c do_ PUT path jsonData with
    | (.error e, t) => (.error e, t)
    | (.ok _, t) => (.ok (), t)

/-- Embedding of Create (src/database.go lines 162-172): marshal, then POST. -/
def Create (c : DBClient) (do_ : Request → Except GoError Response)
    (path : String) (marshal : Except String String) :
    Except GoError Unit × List Request :=
  match marshal with
  | .error e => (.error (.jsonMarshalErr e), [])
  | .ok jsonData =>
    match executeRequest c do_ POST path jsonData with
    | (.error e, t) => (.error e, t)
    | (.ok _, t) => (.ok (), t)

/-- Embedding of Update (src/database.go lines 175-185): marshal, then PATCH. -/
def Update (c : DBClient) (do_ : Request → Except GoError Response)
    (path : String) (marshal : Except String String) :
    Except GoError Unit × List Request :=
  match marshal with
  | .error e => (.error (.jsonMarshalErr e), [])
  | .ok jsonData =>
    match executeRequest c do_ PATCH path jsonData with
    | (.error e, t) => (.error e, t)
    | (.ok _, t) => (.ok (), t)

/-- Embedding of Delete (src/database.go lines 188-191): executeRequest
with the DELETE method constant and a nil body. -/
def Delete (c : DBClient) (do_ : Request → Except GoError Response)
    (path : String) : Except GoError Unit × List Request :=
  match executeRequest c do_ DELETE path "" with
  | (.error e, t) => (.error e, t)
  | (.ok _, t) => (.ok (), t)

/-- One public operation of the client, with its per-call data: the path
and, for the write-style operations, the marshal outcome of the value,
and for Get the unmarshal oracle for the target. -/
inductive Op where
  | get (path : String) (unmarshal : String → Except String Unit)
  | write (path : String) (marshal : Except String String)
  | create (path : String) (marshal : Except String String)
  | update (path : String) (marshal : Except String String)
  | delete (path : String)

/-- Run one operation on the client, returning its outcome and transport
trace. -/
def runOp (c : DBClient) (do_ : Request → Except GoError Response) :
    Op → Except GoError Unit × List Request
  | .get p u => Get c do_ u p
  | .write p m => Write c do_ p m
  | .create p m => Create c do_ p m
  | .update p m => Update c do_ p m
  | .delete p => Delete c do_ p

/-- The requests handed to the transport by a sequence of operations on
one client. The client value is threaded unchanged: no method of the Go
dbClient assigns to any of its fields (the only field writes in
src/database.go are the composite literal inside NewDBClient), so the
embedding of each method takes the client as an immutable argument. -/
def runOps (c : DBClient) (do_ : Request → Except GoError Response) :
    List Op → List Request
  | [] => []
  | op :: ops => (runOp c do_ op).2 ++ runOps c do_ ops

end Firebase

open Firebase

/-- executeRequest hands exactly one request to the transport, namely the
one buildRequest assembles, on every control path. -/
lemma executeRequest_trace (c : DBClient) (do_ : Request → Except GoError Response)
    (m : Method) (p b : String) :
    (executeRequest c do_ m p b).2 = [buildRequest c p m b] := by
  rcases h : do_ (buildRequest c p m b) with e | r
  · simp [executeRequest, h]
  · simp only [executeRequest, h]
    split <;> rfl

/-- Get hands exactly one request to the transport. -/
lemma Get_trace (c : DBClient) (do_ : Request → Except GoError Response)
    (u : String → Except String Unit) (p : String) :
    (Get c do_ u p).2 = [buildRequest c p GET ""] := by
  rcases h : executeRequest c do_ GET p "" with ⟨r, t⟩
  have ht : t = [buildRequest c p GET ""] := by
    have h2 := executeRequest_trace c do_ GET p ""
    rw [h] at h2
    exact h2
  rcases r with e | resp
  · simp [Get, h, ht]
  · rcases hu : u resp with e | v <;> simp [Get, h, hu, ht]

/-- Write hands at most one request to the transport: none when the
marshal fails, the PUT request otherwise. -/
lemma Write_trace (c : DBClient) (do_ : Request → Except GoError Response)
    (p : String) (m : Except String String) :
    (Write c do_ p m).2 = [] ∨
      ∃ d, m = .ok d ∧ (Write c do_ p m).2 = [buildRequest c p PUT d] := by
  rcases m with e | d
  · exact Or.inl rfl
  · right
    refine ⟨d, rfl, ?_⟩
    rcases h : executeRequest c do_ PUT p d with ⟨r, t⟩
    have ht : t = [buildRequest c p PUT d] := by
      have h2 := executeRequest_trace c do_ PUT p d
      rw [h] at h2
      exact h2
    rcases r with e | v <;> simp [Write, h, ht]

/-- Create hands at most one request to the transport. -/
lemma Create_trace (c : DBClient) (do_ : Request → Except GoError Response)
    (p : String) (m : Except String String) :
    (Create c do_ p m).2 = [] ∨
      ∃ d, m = .ok d ∧ (Create c do_ p m).2 = [buildRequest c p POST d] := by
  rcases m with e | d
  · exact Or.inl rfl
  · right
    refine ⟨d, rfl, ?_⟩
    rcases h : executeRequest c do_ POST p d with ⟨r, t⟩
    have ht : t = [buildRequest c p POST d] := by
      have h2 := executeRequest_trace c do_ POST p d
      rw [h] at h2
      exact h2
    rcases r with e | v <;> simp [Create, h, ht]

/-- Update hands at most one request to the transport. -/
lemma Update_trace (c : DBClient) (do_ : Request → Except GoError Response)
    (p : String) (m : Except String String) :
    (Update c do_ p m).2 = [] ∨
      ∃ d, m = .ok d ∧ (Update c do_ p m).2 = [buildRequest c p PATCH d] := by
  rcases m with e | d
  · exact Or.inl rfl
  · right
    refine ⟨d, rfl, ?_⟩
    rcases h : executeRequest c do_ PATCH p d with ⟨r, t⟩
    have ht : t = [buildRequest c p PATCH d] := by
      have h2 := executeRequest_trace c do_ PATCH p d
      rw [h] at h2
      exact h2
    rcases r with e | v <;> simp [Update, h, ht]

/-- Delete hands exactly one request to the transport. -/
lemma Delete_trace (c : DBClient) (do_ : Request → Except GoError Response)
    (p : String) :
    (Delete c do_ p).2 = [buildRequest c p DELETE ""] := by
  rcases h : executeRequest c do_ DELETE p "" with ⟨r, t⟩
  have ht : t = [buildRequest c p DELETE ""] := by
    have h2 := executeRequest_trace c do_ DELETE p ""
    rw [h] at h2
    exact h2
  rcases r with e | v <;> simp [Delete, h, ht]

/-- Every request one operation hands to the transport was assembled by
buildRequest on the unchanged client. -/
lemma runOp_trace_buildRequest (c : DBClient) (do_ : Request → Except GoError Response)
    (op : Op) (req : Request) (hmem : req ∈ (runOp c do_ op).2) :
    ∃ p m b, req = buildRequest c p m b := by
  rcases op with ⟨p, u⟩ | ⟨p, m⟩ | ⟨p, m⟩ | ⟨p, m⟩ | p
  · rw [runOp, Get_trace] at hmem
    exact ⟨p, GET, "", by simpa using hmem⟩
  · rw [runOp] at hmem
    rcases Write_trace c do_ p m with h | ⟨d, _, h⟩
    · rw [h] at hmem
      simp at hmem
    · rw [h] at hmem
      exact ⟨p, PUT, d, by simpa using hmem⟩
  · rw [runOp] at hmem
    rcases Create_trace c do_ p m with h | ⟨d, _, h⟩
    · rw [h] at hmem
      simp at hmem
    · rw [h] at hmem
      exact ⟨p, POST, d, by simpa using hmem⟩
  · rw [runOp] at hmem
    rcases Update_trace c do_ p m with h | ⟨d, _, h⟩
    · rw [h] at hmem
      simp at hmem
    · rw [h] at hmem
      exact ⟨p, PATCH, d, by simpa using hmem⟩
  · rw [runOp, Delete_trace] at hmem
    exact ⟨p, DELETE, "", by simpa using hmem⟩

/-- Every request a sequence of operations hands to the transport was
assembled by buildRequest on the unchanged client. -/
lemma runOps_trace_buildRequest (c : DBClient) (do_ : Request → Except GoError Response)
    (ops : List Op) (req : Request) (hmem : req ∈ runOps c do_ ops) :
    ∃ p m b, req = buildRequest c p m b := by
  induction ops with
  | nil => simp [runOps] at hmem
  | cons op ops ih =>
    rw [runOps] at hmem
    rcases List.mem_append.mp hmem with h | h
    · exact runOp_trace_buildRequest c do_ op req h
    · exact ih h

/-- C1 counterexample: the status line "2xx Custom Reason" is malformed
(its first three characters are not a numeric status code, so it carries
no code in the 200-299 range), yet executeRequest succeeds and returns the
body, instead of returning an error as the claim requires for a malformed
status. -/
theorem executeRequest_malformed_status_succeeds :
    (("2xx Custom Reason".data.take 3).all Char.isDigit = false) ∧
    executeRequest ⟨"b", "", false, false⟩
        (fun _ => .ok ⟨"2xx Custom Reason", "", "B"⟩) GET "/p" ""
      = (.ok "B", [buildRequest ⟨"b", "", false, false⟩ "/p" GET ""]) := by
  exact ⟨by decide, rfl⟩

/-- C1 (amended): executeRequest succeeds exactly when the status string
handed back by the transport starts with the byte "2" (which for a
well-formed status line of the shape code-then-text coincides with a code
in the 200-299 range); for any other status string it returns an error
carrying the status text and no payload, and the response body is not
returned to the caller. -/
theorem executeRequest_status_classification (c : DBClient)
    (do_ : Request → Except GoError Response) (m : Method) (p b : String)
    (resp : Response) (hok : do_ (buildRequest c p m b) = .ok resp) :
    (hasPre resp.status "2" = true →
      executeRequest c do_ m p b = (.ok resp.body, [buildRequest c p m b])) ∧
    (hasPre resp.status "2" = false →
      executeRequest c do_ m p b
        = (.error (.errorNew resp.status), [buildRequest c p m b])) := by
  constructor
  · intro h2
    simp [executeRequest, hok, h2]
  · intro h2
    simp [executeRequest, hok, h2]

/-- C1 witness: the classification theorem applied to a transport that
answers 404 Not Found. -/
theorem executeRequest_status_classification_witness :
    executeRequest ⟨"b", "", false, false⟩
        (fun _ => .ok ⟨"404 Not Found", "", "nope"⟩) GET "/p" ""
      = (.error (.errorNew "404 Not Found"),
         [buildRequest ⟨"b", "", false, false⟩ "/p" GET ""]) :=
  (executeRequest_status_classification ⟨"b", "", false, false⟩
    (fun _ => .ok ⟨"404 Not Found", "", "nope"⟩) GET "/p" ""
    ⟨"404 Not Found", "", "nope"⟩ rfl).2 rfl

/-- C2: for the client built from base https://example.firebaseio.com,
credential tok123, export off (and shallow off by construction), every
request built for path /users/42, whatever the method and body, has
exactly the URL https://example.firebaseio.com/users/42.json?auth=tok123. -/
theorem buildRequest_scenario_url (m : Method) (b : String) :
    (buildRequest (NewDBClient "https://example.firebaseio.com" "tok123" false)
        "/users/42" m b).url
      = "https://example.firebaseio.com/users/42.json?auth=tok123" := rfl

/-- C3: the query parameters of every built request contain the auth
parameter carrying the access token exactly when the access token is
non-empty, and any auth parameter present carries the access token. -/
theorem buildRequest_auth_param_iff (c : DBClient) (p : String) (m : Method) (b : String) :
    ((ParamAccessToken, c.accessToken) ∈ (buildRequest c p m b).query ↔ c.accessToken ≠ "") ∧
    (∀ v, (ParamAccessToken, v) ∈ (buildRequest c p m b).query → v = c.accessToken) := by
  have hq : (buildRequest c p m b).query = buildQuery c := rfl
  rw [hq]
  by_cases ha : c.accessToken = "" <;> by_cases he : c.exportFlag <;> by_cases hs : c.shallow <;>
    simp [buildQuery, ParamAccessToken, ParamFormat, ParamShallow, ha, he, hs]

/-- C3 witness: a non-empty credential appears as the auth parameter. -/
theorem buildRequest_auth_param_iff_witness :
    (ParamAccessToken, "tok")
      ∈ (buildRequest ⟨"b", "tok", false, false⟩ "/p" GET "").query :=
  (buildRequest_auth_param_iff ⟨"b", "tok", false, false⟩ "/p" GET "").1.mpr (by decide)

/-- C4: evaluation of the code at the failing input: the request built by
the Delete operation has the method string DELETET, not DELETE, while its
body is indeed empty; the misspelled DELETE constant of src/database.go
line 20 contradicts the documented wire protocol. -/
theorem delete_sends_misspelled_method :
    ((Delete ⟨"b", "", false, false⟩ (fun _ => .ok ⟨"200 OK", "", ""⟩) "/users/42").2.map
        Request.method = ["DELETET"]) ∧
    ((Delete ⟨"b", "", false, false⟩ (fun _ => .ok ⟨"200 OK", "", ""⟩) "/users/42").2.map
        Request.body = [""]) ∧
    ("DELETET" ≠ "DELETE") := by
  exact ⟨rfl, rfl, by decide⟩

/-- C5 counterexample: on a client whose shallow flag is set, the request
built by the Delete operation does carry shallow=true among its query
parameters, against the claim that a DELETE request never carries it. -/
theorem delete_carries_shallow_when_flag_set :
    (Delete ⟨"b", "", false, true⟩ (fun _ => .ok ⟨"200 OK", "", ""⟩) "/x").2.map
        Request.query = [[(ParamShallow, "true")]] := rfl

/-- C5 (amended): when the shallow flag is set, shallow=true is included
among the query parameters of every built request, whatever the method
(GET, DELETE and all others alike): buildRequest never consults the
availableParams table that would restrict shallow to reads. -/
theorem buildRequest_shallow_param_all_methods (c : DBClient) (p : String)
    (m : Method) (b : String) (hs : c.shallow = true) :
    (ParamShallow, "true") ∈ (buildRequest c p m b).query := by
  have hq : (buildRequest c p m b).query = buildQuery c := rfl
  rw [hq]
  by_cases ha : c.accessToken = "" <;> by_cases he : c.exportFlag <;>
    simp [buildQuery, ha, he, hs]

/-- C5 witness: the amended statement at a DELETE request of a
shallow-flagged client. -/
theorem buildRequest_shallow_param_all_methods_witness :
    (ParamShallow, "true") ∈ (buildRequest ⟨"b", "", false, true⟩ "/x" DELETE "").query :=
  buildRequest_shallow_param_all_methods ⟨"b", "", false, true⟩ "/x" DELETE "" rfl

/-- C6: a failed serialization is returned at once as the marshal error
and the transport is never invoked: the transport trace of each
write-style operation is empty in that case. -/
theorem write_ops_marshal_failure_no_transport (c : DBClient)
    (do_ : Request → Except GoError Response) (p e : String) :
    Write c do_ p (.error e) = (.error (.jsonMarshalErr e), []) ∧
    Create c do_ p (.error e) = (.error (.jsonMarshalErr e), []) ∧
    Update c do_ p (.error e) = (.error (.jsonMarshalErr e), []) :=
  ⟨rfl, rfl, rfl⟩

/-- C7: when the transport fails, every operation propagates the transport
error value unchanged with no payload, and hands the transport exactly one
request per invocation; the write-style operations are stated for a
successful serialization, since a failed one never reaches the transport. -/
theorem transport_error_propagation (c : DBClient)
    (do_ : Request → Except GoError Response) (e : GoError)
    (herr : ∀ req, do_ req = .error e) :
    (∀ m p b, executeRequest c do_ m p b = (.error e, [buildRequest c p m b])) ∧
    (∀ u p, Get c do_ u p = (.error e, [buildRequest c p GET ""])) ∧
    (∀ p d, Write c do_ p (.ok d) = (.error e, [buildRequest c p PUT d])) ∧
    (∀ p d, Create c do_ p (.ok d) = (.error e, [buildRequest c p POST d])) ∧
    (∀ p d, Update c do_ p (.ok d) = (.error e, [buildRequest c p PATCH d])) ∧
    (∀ p, Delete c do_ p = (.error e, [buildRequest c p DELETE ""])) := by
  have hex : ∀ m p b, executeRequest c do_ m p b = (.error e, [buildRequest c p m b]) := by
    intro m p b
    simp [executeRequest, herr (buildRequest c p m b)]
  refine ⟨hex, ?_, ?_, ?_, ?_, ?_⟩
  · intro u p
    simp [Get, hex GET p ""]
  · intro p d
    simp [Write, hex PUT p d]
  · intro p d
    simp [Create, hex POST p d]
  · intro p d
    simp [Update, hex PATCH p d]
  · intro p
    simp [Delete, hex DELETE p ""]

/-- C7 witness: a transport that always refuses makes Delete return the
refusal unchanged after exactly one dispatch. -/
theorem transport_error_propagation_witness :
    Delete ⟨"b", "t", false, false⟩ (fun _ => .error (.transportErr "refused")) "/p"
      = (.error (.transportErr "refused"),
         [buildRequest ⟨"b", "t", false, false⟩ "/p" DELETE ""]) :=
  (transport_error_propagation ⟨"b", "t", false, false⟩
    (fun _ => .error (.transportErr "refused")) (.transportErr "refused")
    (fun _ => rfl)).2.2.2.2.2 "/p"

/-- C8: on a response whose status passes the success check, Get returns
the unmarshal outcome: unit on success, and on a decode failure exactly
the json error, which is a different error value from the status-based
remote error; on a response that fails the status check, Get returns the
remote error errors.New(status) whatever the unmarshal oracle is, so no
decoding is attempted. -/
theorem get_decode_vs_remote_error (c : DBClient)
    (do_ : Request → Except GoError Response) (p : String) (resp : Response)
    (hok : do_ (buildRequest c p GET "") = .ok resp) :
    (hasPre resp.status "2" = true →
      (∀ unm, unm resp.body = .ok () →
        Get c do_ unm p = (.ok (), [buildRequest c p GET ""])) ∧
      (∀ unm em, unm resp.body = .error em →
        Get c do_ unm p
          = (.error (.jsonUnmarshalErr em), [buildRequest c p GET ""]) ∧
        GoError.jsonUnmarshalErr em ≠ GoError.errorNew resp.status)) ∧
    (hasPre resp.status "2" = false →
      ∀ unm, Get c do_ unm p
        = (.error (.errorNew resp.status), [buildRequest c p GET ""])) := by
  constructor
  · intro h2
    have hex : executeRequest c do_ GET p "" = (.ok resp.body, [buildRequest c p GET ""]) := by
      simp [executeRequest, hok, h2]
    constructor
    · intro unm hu
      simp [Get, hex, hu]
    · intro unm em hu
      exact ⟨by simp [Get, hex, hu], by simp⟩
  · intro h2 unm
    have hex : executeRequest c do_ GET p ""
        = (.error (.errorNew resp.status), [buildRequest c p GET ""]) := by
      simp [executeRequest, hok, h2]
    simp [Get, hex]

/-- C8 witness: a 200 OK response whose payload fails to decode yields the
json error, not a remote error. -/
theorem get_decode_vs_remote_error_witness :
    Get ⟨"b", "", false, false⟩ (fun _ => .ok ⟨"200 OK", "", "xyz"⟩)
        (fun _ => .error "bad json") "/p"
      = (.error (.jsonUnmarshalErr "bad json"),
         [buildRequest ⟨"b", "", false, false⟩ "/p" GET ""]) :=
  (((get_decode_vs_remote_error ⟨"b", "", false, false⟩
      (fun _ => .ok ⟨"200 OK", "", "xyz"⟩) "/p" ⟨"200 OK", "", "xyz"⟩ rfl).1 rfl).2
    (fun _ => .error "bad json") "bad json" rfl).1

/-- C9: the base address of a client is fixed at construction and no
operation changes it: every request any sequence of operations hands to
the transport was assembled by buildRequest on the client exactly as
constructed, whose baseUrl is the one supplied to NewDBClient. -/
theorem base_address_immutable (base tok : String) (exp : Bool)
    (do_ : Request → Except GoError Response) (ops : List Op) :
    (NewDBClient base tok exp).baseUrl = base ∧
    ∀ req ∈ runOps (NewDBClient base tok exp) do_ ops,
      ∃ p m b, req = buildRequest (NewDBClient base tok exp) p m b := by
  refine ⟨rfl, ?_⟩
  intro req hmem
  exact runOps_trace_buildRequest _ do_ ops req hmem

/-- C9 witness: the request of a concrete Delete run is the buildRequest
of the constructed client. -/
theorem base_address_immutable_witness :
    ∃ p m b,
      buildRequest (NewDBClient "b" "t" false) "/x" DELETE ""
        = buildRequest (NewDBClient "b" "t" false) p m b :=
  (base_address_immutable "b" "t" false (fun _ => .ok ⟨"200 OK", "", ""⟩)
    [Op.delete "/x"]).2 (buildRequest (NewDBClient "b" "t" false) "/x" DELETE "")
    (by simp [runOps, runOp, Delete_trace])

/-- The shallow parameter never occurs in the query of a client whose
shallow flag is unset. -/
lemma shallow_not_in_buildQuery (c : DBClient) (hs : c.shallow = false) (v : String) :
    (ParamShallow, v) ∉ buildQuery c := by
  by_cases ha : c.accessToken = "" <;> by_cases he : c.exportFlag <;>
    simp [buildQuery, ParamShallow, ParamAccessToken, ParamFormat, ha, he, hs]

/-- C10: NewDBClient zero-initialises the shallow flag to false, no
operation changes it, and consequently no request any sequence of
operations hands to the transport carries a shallow query parameter. -/
theorem newDBClient_no_shallow (base tok : String) (exp : Bool)
    (do_ : Request → Except GoError Response) (ops : List Op) :
    (NewDBClient base tok exp).shallow = false ∧
    ∀ req ∈ runOps (NewDBClient base tok exp) do_ ops,
      ∀ v, (ParamShallow, v) ∉ req.query := by
  refine ⟨rfl, ?_⟩
  intro req hmem v
  obtain ⟨p, m, b, rfl⟩ := runOps_trace_buildRequest _ do_ ops req hmem
  have hq : (buildRequest (NewDBClient base tok exp) p m b).query
      = buildQuery (NewDBClient base tok exp) := rfl
  rw [hq]
  exact shallow_not_in_buildQuery _ rfl v

/-- C10 witness: the concrete Delete request of a freshly constructed
client carries no shallow parameter. -/
theorem newDBClient_no_shallow_witness :
    (ParamShallow, "true")
      ∉ (buildRequest (NewDBClient "b" "t" false) "/x" DELETE "").query :=
  (newDBClient_no_shallow "b" "t" false (fun _ => .ok ⟨"200 OK", "", ""⟩)
    [Op.delete "/x"]).2 (buildRequest (NewDBClient "b" "t" false) "/x" DELETE "")
    (by simp [runOps, runOp, Delete_trace]) "true"
